import Mathlib

/-!
Shallow embedding of `pyhealth/datasets/omop_v2.py` (class `CDMDataset`).

Conventions of the embedding:
* pandas cells are `String`s (identifier columns are read with `dtype=str` in the
  source; date cells are the raw ISO strings the csv holds, compared
  lexicographically exactly as Python compares them); a missing cell (NaN) is
  `Option.none`.
* Python dicts keyed by strings are association lists `List (String × α)` with
  first-match lookup.
* The external `CrossMap.map` service is an opaque parameter
  `tool : String → String → String → List String` taking the source vocabulary,
  the target vocabulary and the code, and returning the ordered list of mapped
  codes (the `source_kwargs`/`target_kwargs` options of the tuple form of a
  mapping entry only change which service is called, so they are absorbed into
  `tool`).
* `pandas.DataFrame.groupby(k)` (with its default `sort=True`) is modelled as:
  take the sorted distinct non-null keys, and for each key the sub-list of rows
  carrying it, preserving row order.
-/

namespace Omop

/-- First-match lookup in an association list, mirroring a Python dict read
`d[k]` guarded by `k in d`. -/
def lookupStr {α : Type} (k : String) : List (String × α) → Option α
  | [] => none
  | (a, b) :: rest => if a = k then some b else lookupStr k rest

/-- `pyhealth.data.Event`: the fields used by `omop_v2.py` (code, vocabulary,
table, visit id, person id, timestamp). -/
structure Event where
  code : String
  vocabulary : String
  table : String
  visit_id : String
  patient_id : String
  timestamp : String
  deriving DecidableEq, Repr

/-- `pyhealth.data.Visit`: visit id, owning person id, encounter/discharge
times, discharge status (0 = alive, 1 = deceased as in `basic_unit`), and the
table-name → event-list mapping. -/
structure Visit where
  visit_id : String
  patient_id : String
  encounter_time : String
  discharge_time : String
  discharge_status : Nat
  event_list_dict : List (String × List Event)
  deriving DecidableEq, Repr

/-- `pyhealth.data.Patient`: id, demographics, and the ordered visit list
(insertion order). -/
structure Patient where
  patient_id : String
  birth_datetime : String
  death_datetime : Option String
  gender : String
  ethnicity : String
  visits : List Visit
  deriving DecidableEq, Repr

/-- The timeline collection `patients : Dict[str, Patient]`. -/
abbrev PatientDict : Type := List (String × Patient)

/-- The vocabulary registry `self.code_vocs : Dict[str, str]`
(table name → vocabulary). -/
abbrev Registry : Type := List (String × String)

/-- The `code_mapping` configuration: source vocabulary → target vocabulary.
(The tuple form `(tgt, kwargs)` differs only in the kwargs forwarded to the
service, which the opaque `tool` absorbs.) -/
abbrev CodeMapping : Type := List (String × String)

/-- The opaque Cross-Vocabulary Mapping Service: `tool src tgt code` is
`CrossMap(src, tgt).map(code, ...)`. -/
abbrev Tool : Type := String → String → String → List String

/-- The registry update loop of `_convert_code_in_event` (lines 379–381):
every entry whose current value equals `src` is rewritten to `tgt`. -/
def update_code_vocs (code_vocs : Registry) (src tgt : String) : Registry :=
  code_vocs.map (fun kv => if kv.2 = src then (kv.1, tgt) else kv)

/-- `CDMDataset._convert_code_in_event` (lines 345–385): if the event's
vocabulary is a configured source, call the service, copy the event once per
returned code rewriting code and vocabulary, and update the registry;
otherwise return the event unchanged. Returns (mapped events, new registry). -/
def convert_code_in_event (cm : CodeMapping) (tool : Tool) (code_vocs : Registry)
    (ev : Event) : List Event × Registry :=
  match lookupStr ev.vocabulary cm with
  | some tgt =>
      let mapped_code_list := tool ev.vocabulary tgt ev.code
      let mapped_event_list :=
        mapped_code_list.map (fun c => { ev with code := c, vocabulary := tgt })
      (mapped_event_list, update_code_vocs code_vocs ev.vocabulary tgt)
  | none => ([ev], code_vocs)

/-- The inner loop of `_convert_code_in_patient` over one table's event list:
`all_mapped_events.extend(self._convert_code_in_event(event))` for each event,
threading the registry. -/
def convert_events (cm : CodeMapping) (tool : Tool) (code_vocs : Registry) :
    List Event → List Event × Registry
  | [] => ([], code_vocs)
  | e :: es =>
      let r1 := convert_code_in_event cm tool code_vocs e
      let r2 := convert_events cm tool r1.2 es
      (r1.1 ++ r2.1, r2.2)

/-- The loop of `_convert_code_in_patient` over `visit.available_tables`:
each table's list is replaced by its converted list
(`visit.set_event_list(table, all_mapped_events)`). -/
def convert_tables (cm : CodeMapping) (tool : Tool) (code_vocs : Registry) :
    List (String × List Event) → List (String × List Event) × Registry
  | [] => ([], code_vocs)
  | (t, evs) :: rest =>
      let r1 := convert_events cm tool code_vocs evs
      let r2 := convert_tables cm tool r1.2 rest
      ((t, r1.1) :: r2.1, r2.2)

/-- The loop of `_convert_code_in_patient` over `patient` (its visits). -/
def convert_visits (cm : CodeMapping) (tool : Tool) (code_vocs : Registry) :
    List Visit → List Visit × Registry
  | [] => ([], code_vocs)
  | v :: vs =>
      let r1 := convert_tables cm tool code_vocs v.event_list_dict
      let r2 := convert_visits cm tool r1.2 vs
      ({ v with event_list_dict := r1.1 } :: r2.1, r2.2)

/-- `CDMDataset._convert_code_in_patient` (lines 323–343). -/
def convert_code_in_patient (cm : CodeMapping) (tool : Tool) (code_vocs : Registry)
    (patient : Patient) : Patient × Registry :=
  let r := convert_visits cm tool code_vocs patient.visits
  ({ patient with visits := r.1 }, r.2)

/-- `CDMDataset._convert_code_in_patient_dict` (lines 303–321): every patient
in the dict is replaced by its converted form. -/
def convert_code_in_patient_dict (cm : CodeMapping) (tool : Tool)
    (code_vocs : Registry) : PatientDict → PatientDict × Registry
  | [] => ([], code_vocs)
  | (pid, p) :: rest =>
      let r1 := convert_code_in_patient cm tool code_vocs p
      let r2 := convert_code_in_patient_dict cm tool r1.2 rest
      ((pid, r1.1) :: r2.1, r2.2)

/-! ### String comparison

Python compares strings lexicographically by code point; pandas `sort_values`
and the `death_date > visit_end_date` comparison in `basic_unit` both use this
order. We implement it directly on the character list of a `String`. -/

/-- Lexicographic strict order on character lists (Python string `<`). -/
def lexLt : List Char → List Char → Bool
  | [], [] => false
  | [], _ :: _ => true
  | _ :: _, [] => false
  | a :: as, b :: bs =>
      if a.toNat < b.toNat then true
      else if b.toNat < a.toNat then false
      else lexLt as bs

/-- Python string `<`. -/
def strLtB (a b : String) : Bool := lexLt a.data b.data

/-- Python string `<=`. -/
def strLeB (a b : String) : Bool := a == b || strLtB a b

/-! ### Rows of the three basic tables (`parse_basic_info`, lines 392–495) -/

/-- One row of `person.csv` (columns used by `parse_basic_info`; `person_id`
is read with `dtype=str`, the other cells are kept as their csv text). -/
structure PersonRow where
  person_id : String
  year_of_birth : String
  month_of_birth : String
  day_of_birth : String
  gender_concept_id : String
  race_concept_id : String
  deriving DecidableEq, Repr

/-- One row of `visit_occurrence.csv` (columns used). -/
structure VisitRow where
  person_id : String
  visit_occurrence_id : String
  visit_start_datetime : String
  visit_start_date : String
  visit_end_date : String
  deriving DecidableEq, Repr

/-- One row of `death.csv` (columns used). -/
structure DeathRow where
  person_id : String
  death_date : String
  deriving DecidableEq, Repr

/-- The visit-table columns of a joined row; `none` on the whole bundle marks
the NaN cells a left join puts on a person without visits. -/
structure VisitCols where
  visit_occurrence_id : String
  visit_start_datetime : String
  visit_start_date : String
  visit_end_date : String
  deriving DecidableEq, Repr

/-- One row of `pd.merge(pd.merge(person, visit, how="left"), death, how="left")`. -/
structure JoinedRow where
  person_id : String
  year_of_birth : String
  month_of_birth : String
  day_of_birth : String
  gender_concept_id : String
  race_concept_id : String
  visit : Option VisitCols
  death_date : Option String
  deriving DecidableEq, Repr

/-- `pd.merge(person_df, visit_occurrence_df, on="person_id", how="left")`
(line 429): each person row pairs with each of its visit rows in table order,
or survives alone with NaN visit columns. -/
def joinPersonVisit (persons : List PersonRow) (visits : List VisitRow) :
    List JoinedRow :=
  persons.flatMap (fun p =>
    match visits.filter (fun v => v.person_id == p.person_id) with
    | [] => [⟨p.person_id, p.year_of_birth, p.month_of_birth, p.day_of_birth,
              p.gender_concept_id, p.race_concept_id, none, none⟩]
    | vs => vs.map (fun v =>
        ⟨p.person_id, p.year_of_birth, p.month_of_birth, p.day_of_birth,
         p.gender_concept_id, p.race_concept_id,
         some ⟨v.visit_occurrence_id, v.visit_start_datetime,
               v.visit_start_date, v.visit_end_date⟩, none⟩))

/-- `pd.merge(df, death_df, on="person_id", how="left")` (line 430). -/
def joinDeath (rows : List JoinedRow) (deaths : List DeathRow) : List JoinedRow :=
  rows.flatMap (fun r =>
    match (deaths.filter (fun d => d.person_id == r.person_id)).map
        (fun d => d.death_date) with
    | [] => [r]
    | ds => ds.map (fun dd => { r with death_date := some dd }))

/-- `<` on optional keys: NaN cells sort after every value (`na_position`
defaults to `"last"` in `sort_values`). -/
def optLtB : Option String → Option String → Bool
  | some x, some y => strLtB x y
  | some _, none => true
  | none, _ => false

/-- `<=` on optional keys. -/
def optLeB (a b : Option String) : Bool := a == b || optLtB a b

/-- The three-key comparison of
`df.sort_values(["person_id", "visit_occurrence_id", "visit_start_datetime"],
ascending=True)` (lines 432–434). -/
def rowLeB (a b : JoinedRow) : Bool :=
  strLtB a.person_id b.person_id ||
    (a.person_id == b.person_id &&
      (optLtB (a.visit.map (fun v => v.visit_occurrence_id))
              (b.visit.map (fun v => v.visit_occurrence_id)) ||
        ((a.visit.map (fun v => v.visit_occurrence_id))
            == (b.visit.map (fun v => v.visit_occurrence_id)) &&
          optLeB (a.visit.map (fun v => v.visit_start_datetime))
                 (b.visit.map (fun v => v.visit_start_datetime)))))

/-- Insertion step of the sort. -/
def insertRow (r : JoinedRow) : List JoinedRow → List JoinedRow
  | [] => [r]
  | x :: xs => if rowLeB r x then r :: x :: xs else x :: insertRow r xs

/-- `df.sort_values(...)` as an insertion sort (one valid realization; the
claims below never depend on how ties are broken). -/
def sort_values : List JoinedRow → List JoinedRow
  | [] => []
  | r :: rs => insertRow r (sort_values rs)

/-- Sorted insertion of a key, dropping duplicates: builds the sorted distinct
key list a pandas `groupby` iterates over. -/
def insertKey (x : String) : List String → List String
  | [] => [x]
  | y :: ys =>
      if strLtB x y then x :: y :: ys
      else if x = y then y :: ys
      else y :: insertKey x ys

/-- Sorted distinct keys of a list. -/
def sortedNub (l : List String) : List String := l.foldr insertKey []

/-- `df.groupby(k)` with the default `sort=True`: the sorted distinct non-null
keys, each with the sub-list of rows carrying it (row order preserved; rows
whose key is NaN are dropped, as pandas does). -/
def groupby (key : JoinedRow → Option String) (rows : List JoinedRow) :
    List (String × List JoinedRow) :=
  (sortedNub (rows.filterMap key)).map
    (fun k => (k, rows.filter (fun r => key r == some k)))

/-- Placeholder row for `List.headD`; every group a `groupby` emits is
non-empty, so it is never consulted. -/
def defaultJoinedRow : JoinedRow := ⟨"", "", "", "", "", "", none, none⟩

/-- Placeholder visit-column bundle for `Option.getD`; the visit grouping key
exists exactly when the visit columns do, so it is never consulted. -/
def defaultVisitCols : VisitCols := ⟨"", "", "", ""⟩

/-- The discharge-status computation of `basic_unit` (lines 471–476):
`0` if `pd.isna(death_date)`, `0` if `death_date > visit_end_date`
(written here as `strLtB visit_end_date d`), else `1`. -/
def discharge_status (death_date : Option String) (visit_end_date : String) : Nat :=
  match death_date with
  | none => 0
  | some d => if strLtB visit_end_date d then 0 else 1

/-- The visit-construction body of `basic_unit`'s inner loop (lines 467–485):
one `Visit` from one `visit_occurrence_id` sub-group. `strptime` (from
`pyhealth.datasets.utils`, not under `src/`) is modelled as the identity on
the raw date string. -/
def visit_unit (p_id v_id : String) (v_info : List JoinedRow) : Visit :=
  let r := v_info.headD defaultJoinedRow
  let cols := r.visit.getD defaultVisitCols
  { visit_id := v_id
    patient_id := p_id
    encounter_time := cols.visit_start_date
    discharge_time := cols.visit_end_date
    discharge_status := discharge_status r.death_date cols.visit_end_date
    event_list_dict := [] }

/-- `basic_unit` (lines 452–486): build one `Patient` from one person group
(`none` on the empty group, which `groupby` never emits). Demographics come
from the group's first row; visits come from grouping by
`visit_occurrence_id`. -/
def basic_unit : List JoinedRow → Option Patient
  | [] => none
  | r0 :: rs =>
      some
        { patient_id := r0.person_id
          birth_datetime :=
            r0.year_of_birth ++ "-" ++ r0.month_of_birth ++ "-" ++ r0.day_of_birth
          death_datetime := r0.death_date
          gender := r0.gender_concept_id
          ethnicity := r0.race_concept_id
          visits :=
            (groupby (fun r => r.visit.map (fun v => v.visit_occurrence_id))
                (r0 :: rs)).map
              (fun g => visit_unit r0.person_id g.1 g.2) }

/-- `pd.read_csv(..., nrows=...)`: keep the first `n` rows when a cap is
given, all rows otherwise. -/
def read_csv {ρ : Type} (rows : List ρ) (nrows : Option Nat) : List ρ :=
  match nrows with
  | some n => rows.take n
  | none => rows

/-- The `nrows` argument of the `person.csv` read (line 413):
`1000 if self.dev else None`. -/
def person_nrows (dev : Bool) : Option Nat := if dev then some 1000 else none

/-- The `visit_occurrence.csv` read (lines 417–421) passes no `nrows`. -/
def visit_occurrence_nrows (_dev : Bool) : Option Nat := none

/-- The `death.csv` read (lines 423–427) passes no `nrows`. -/
def death_nrows (_dev : Bool) : Option Nat := none

/-- The `condition_occurrence.csv` read (lines 515–523) passes no `nrows`. -/
def condition_occurrence_nrows (_dev : Bool) : Option Nat := none

/-- The `procedure_occurrence.csv` read (lines 582–590) passes no `nrows`. -/
def procedure_occurrence_nrows (_dev : Bool) : Option Nat := none

/-- The `drug_exposure.csv` read (lines 645–653) passes no `nrows`. -/
def drug_exposure_nrows (_dev : Bool) : Option Nat := none

/-- The `measurement.csv` read (lines 709–716) passes no `nrows`. -/
def measurement_nrows (_dev : Bool) : Option Nat := none

/-- `parse_basic_info` (lines 392–495): read (with the dev cap on the person
table only), left-join person ⟕ visit ⟕ death, sort, group by person, and run
`basic_unit` on each group; the resulting patients are keyed by their group's
person id. -/
def parse_basic_info (dev : Bool) (person_rows : List PersonRow)
    (visit_rows : List VisitRow) (death_rows : List DeathRow) : PatientDict :=
  let person_df := read_csv person_rows (person_nrows dev)
  let df := joinDeath (joinPersonVisit person_df visit_rows) death_rows
  let sorted := sort_values df
  (groupby (fun r => some r.person_id) sorted).filterMap
    (fun g => (basic_unit g.2).map (fun p => (g.1, p)))

/-! ### Content-addressed cache (`CDMDataset.__init__`, lines 158–190) -/

/-- The constructor arguments that exist when the cache key is computed
(`tables`, `code_mapping` as a list of entries, plus the scalar flags). -/
structure Config where
  dataset_name : String
  root : String
  tables : List String
  code_mapping : List (String × String)
  dev : Bool
  sep : String
  use_compressed : Bool
  deriving DecidableEq, Repr

/-- Generic insertion step for `sorted(...)`. -/
def insertSortedBy {α : Type} (le : α → α → Bool) (x : α) : List α → List α
  | [] => [x]
  | y :: ys => if le x y then x :: y :: ys else y :: insertSortedBy le x ys

/-- Python `sorted(...)` (duplicates kept) as an insertion sort. -/
def sortBy {α : Type} (le : α → α → Bool) : List α → List α
  | [] => []
  | x :: xs => insertSortedBy le x (sortBy le xs)

/-- Order on `code_mapping.items()`: Python sorts tuples componentwise. -/
def pairLeB (a b : String × String) : Bool :=
  strLtB a.1 b.1 || (a.1 == b.1 && strLeB a.2 b.2)

/-- Python `str` of a two-string tuple; the element quoting of `repr` is
immaterial to the claims and is omitted. -/
def tuple_str (p : String × String) : String := "(" ++ p.1 ++ ", " ++ p.2 ++ ")"

/-- `"+".join(str(arg) for arg in args)`. -/
def joinPlus : List String → String
  | [] => ""
  | [x] => x
  | x :: y :: xs => x ++ "+" ++ joinPlus (y :: xs)

/-- `args_to_hash` (lines 159–164): `[dataset_name, root] + sorted(tables) +
sorted(code_mapping.items()) + ["dev" if dev else "prod"]`. -/
def args_to_hash (c : Config) : List String :=
  [c.dataset_name, c.root] ++ sortBy strLeB c.tables
    ++ (sortBy pairLeB c.code_mapping).map tuple_str
    ++ [if c.dev then "dev" else "prod"]

/-- The string fed to `hash_str` (line 165). `hash_str` is a deterministic
digest, so two runs share a cache file exactly when these strings agree; we
reason at the string level. -/
def cache_key (c : Config) : String := joinPlus (args_to_hash c)

/-- `os.path.join(self.root, f"{table}.csv" + (".gz" if use_compressed else ""))`:
the file a table is read from (lines 410–411 and the per-table parsers). -/
def table_filename (root table : String) (use_compressed : Bool) : String :=
  root ++ "/" ++ table ++ ".csv" ++ (if use_compressed then ".gz" else "")

/-- Observable outcome of the cache branch of `__init__` (lines 168–190):
the returned value (or raised error), whether `parse_tables` +
`_convert_code_in_patient_dict` ran, and whether `save_pickle` ran. -/
structure InitOutcome (α : Type) where
  result : Except String α
  ran_pipeline : Bool
  saved_cache : Bool
  deriving Repr

/-- The cache branch of `__init__` (lines 168–190). `cache_hit` is
`os.path.exists(self.filepath)`; `load_cache` is the result of
`load_pickle` (`none` = the `except` branch, any deserialization failure);
`pipeline` is the (timeline, registry) pair the full run would produce. -/
def dataset_init {α : Type} (cache_hit refresh_cache : Bool)
    (load_cache : Option α) (pipeline : α) : InitOutcome α :=
  if cache_hit && !refresh_cache then
    match load_cache with
    | some d => ⟨Except.ok d, false, false⟩
    | none =>
        ⟨Except.error "Please refresh your cache by set refresh_cache=True",
          false, false⟩
  else ⟨Except.ok pipeline, true, true⟩

/-! ### Event attachment (lines 253–301) -/

/-- Append an event to the per-table list of its table, creating the entry if
absent (the event-list bookkeeping of `Visit.add_event`). -/
def add_event_to_table_dict : List (String × List Event) → Event →
    List (String × List Event)
  | [], ev => [(ev.table, [ev])]
  | (t, evs) :: rest, ev =>
      if t = ev.table then (t, evs ++ [ev]) :: rest
      else (t, evs) :: add_event_to_table_dict rest ev

/-- Modelled from the spec: `Patient.add_event` lives in the data-model module
(`pyhealth.data`), which is not under `src/`. Per spec §3/§4.4 the event is
appended to the named episode's table-specific list when that episode exists
on the person, and an unknown episode id nets a silent drop (the KeyError it
raises is caught by `_add_event_to_patient_dict`), leaving the patient
unchanged. -/
def Patient.add_event (p : Patient) (ev : Event) : Patient :=
  { p with
    visits := p.visits.map (fun v =>
      if v.visit_id = ev.visit_id then
        { v with event_list_dict := add_event_to_table_dict v.event_list_dict ev }
      else v) }

/-- `CDMDataset._add_event_to_patient_dict` (lines 277–301): look the person
up by the event's person id; a missing key (`except KeyError: pass`) leaves
the dict unchanged, otherwise the patient absorbs the event. -/
def add_event_to_patient_dict (patient_dict : PatientDict) (event : Event) :
    PatientDict :=
  match lookupStr event.patient_id patient_dict with
  | none => patient_dict
  | some _ =>
      patient_dict.map (fun kv =>
        if kv.1 = event.patient_id then (kv.1, Patient.add_event kv.2 event)
        else kv)

/-- `CDMDataset._add_events_to_patient_dict` (lines 253–275): fold every
event of every per-person group into the dict, one event at a time. -/
def add_events_to_patient_dict (patient_dict : PatientDict)
    (group_df : List (List Event)) : PatientDict :=
  group_df.foldl (fun acc events => events.foldl add_event_to_patient_dict acc)
    patient_dict

/-! ### Lemmas about the vocabulary mapper -/

/-- The event list produced for one event does not depend on the registry
state threaded through the conversion. -/
theorem convert_code_in_event_fst (cm : CodeMapping) (tool : Tool)
    (cv cv2 : Registry) (ev : Event) :
    (convert_code_in_event cm tool cv ev).1
      = (convert_code_in_event cm tool cv2 ev).1 := by
  simp only [convert_code_in_event]
  cases lookupStr ev.vocabulary cm <;> rfl

/-- The event list produced for a whole table list is the per-event fan-out,
concatenated in place. -/
theorem convert_events_fst (cm : CodeMapping) (tool : Tool) (cv cv0 : Registry)
    (evs : List Event) :
    (convert_events cm tool cv evs).1
      = evs.flatMap (fun e => (convert_code_in_event cm tool cv0 e).1) := by
  induction evs generalizing cv with
  | nil => simp [convert_events]
  | cons e es ih =>
      simp only [convert_events, List.flatMap_cons]
      rw [convert_code_in_event_fst cm tool cv cv0,
        ih (convert_code_in_event cm tool cv e).2]

/-- An event whose vocabulary is not a configured source passes through
unchanged, with the registry untouched. -/
theorem convert_code_in_event_unmapped (cm : CodeMapping) (tool : Tool)
    (cv : Registry) (e : Event) (h : lookupStr e.vocabulary cm = none) :
    convert_code_in_event cm tool cv e = ([e], cv) := by
  simp [convert_code_in_event, h]

/-- A table list all of whose events are unconfigured converts to itself. -/
theorem convert_events_unmapped (cm : CodeMapping) (tool : Tool) (cv : Registry)
    (evs : List Event) (h : ∀ e ∈ evs, lookupStr e.vocabulary cm = none) :
    convert_events cm tool cv evs = (evs, cv) := by
  induction evs with
  | nil => rfl
  | cons e es ih =>
      have he : lookupStr e.vocabulary cm = none := h e (by simp)
      have hes : ∀ x ∈ es, lookupStr x.vocabulary cm = none :=
        fun x hx => h x (by simp [hx])
      simp [convert_events, convert_code_in_event_unmapped cm tool cv e he, ih hes]

/-- A table dictionary all of whose events are unconfigured converts to
itself. -/
theorem convert_tables_unmapped (cm : CodeMapping) (tool : Tool) (cv : Registry)
    (tes : List (String × List Event))
    (h : ∀ te ∈ tes, ∀ e ∈ te.2, lookupStr e.vocabulary cm = none) :
    convert_tables cm tool cv tes = (tes, cv) := by
  induction tes with
  | nil => rfl
  | cons te rest ih =>
      have hte : ∀ e ∈ te.2, lookupStr e.vocabulary cm = none :=
        h te (by simp)
      have hrest : ∀ x ∈ rest, ∀ e ∈ x.2, lookupStr e.vocabulary cm = none :=
        fun x hx => h x (by simp [hx])
      obtain ⟨t, evs⟩ := te
      simp [convert_tables, convert_events_unmapped cm tool cv evs hte, ih hrest]

/-- A visit list all of whose events are unconfigured converts to itself. -/
theorem convert_visits_unmapped (cm : CodeMapping) (tool : Tool) (cv : Registry)
    (vs : List Visit)
    (h : ∀ v ∈ vs, ∀ te ∈ v.event_list_dict, ∀ e ∈ te.2,
        lookupStr e.vocabulary cm = none) :
    convert_visits cm tool cv vs = (vs, cv) := by
  induction vs with
  | nil => rfl
  | cons v rest ih =>
      have hv : ∀ te ∈ v.event_list_dict, ∀ e ∈ te.2,
          lookupStr e.vocabulary cm = none := h v (by simp)
      have hrest : ∀ x ∈ rest, ∀ te ∈ x.event_list_dict, ∀ e ∈ te.2,
          lookupStr e.vocabulary cm = none := fun x hx => h x (by simp [hx])
      simp [convert_visits, convert_tables_unmapped cm tool cv v.event_list_dict hv,
        ih hrest]

/-- A patient all of whose events are unconfigured converts to itself. -/
theorem convert_code_in_patient_unmapped (cm : CodeMapping) (tool : Tool)
    (cv : Registry) (p : Patient)
    (h : ∀ v ∈ p.visits, ∀ te ∈ v.event_list_dict, ∀ e ∈ te.2,
        lookupStr e.vocabulary cm = none) :
    convert_code_in_patient cm tool cv p = (p, cv) := by
  simp [convert_code_in_patient, convert_visits_unmapped cm tool cv p.visits h]

/-- C1: for an event whose vocabulary is a configured source vocabulary, if
the mapping service returns `k` codes then the event is replaced by exactly
`k` events, each a copy of the source sharing timestamp, episode (visit) id,
person id and table, differing only in code and vocabulary, in the order the
service returned the codes; `k = 0` removes the event; and inside a table's
event list the fan-out group sits exactly where the source event sat. -/
theorem fanout_law_C1 (cm : CodeMapping) (tool : Tool) (cv : Registry)
    (ev : Event) (tgt : String) (ks : List String)
    (hm : lookupStr ev.vocabulary cm = some tgt)
    (hk : tool ev.vocabulary tgt ev.code = ks) :
    (convert_code_in_event cm tool cv ev).1
        = ks.map (fun c => { ev with code := c, vocabulary := tgt })
      ∧ ((convert_code_in_event cm tool cv ev).1).length = ks.length
      ∧ (∀ e ∈ (convert_code_in_event cm tool cv ev).1,
          e.timestamp = ev.timestamp ∧ e.visit_id = ev.visit_id
            ∧ e.patient_id = ev.patient_id ∧ e.table = ev.table)
      ∧ (ks = [] → (convert_code_in_event cm tool cv ev).1 = [])
      ∧ (∀ pre post : List Event,
          (convert_events cm tool cv (pre ++ ev :: post)).1
            = (convert_events cm tool cv pre).1
              ++ ks.map (fun c => { ev with code := c, vocabulary := tgt })
              ++ (convert_events cm tool cv post).1) := by
  have hfst : (convert_code_in_event cm tool cv ev).1
      = ks.map (fun c => { ev with code := c, vocabulary := tgt }) := by
    simp [convert_code_in_event, hm, hk]
  refine ⟨hfst, ?_, ?_, ?_, ?_⟩
  · rw [hfst]; simp
  · intro e he
    rw [hfst] at he
    simp only [List.mem_map] at he
    obtain ⟨c, _, rfl⟩ := he
    exact ⟨rfl, rfl, rfl, rfl⟩
  · intro h0; rw [hfst, h0]; simp
  · intro pre post
    rw [convert_events_fst cm tool cv cv, convert_events_fst cm tool cv cv,
      convert_events_fst cm tool cv cv, List.flatMap_append, List.flatMap_cons,
      hfst, List.append_assoc]

/-- Witness for C1: with mapping `{ICD9 ↦ ICD10}` and a service returning
`["C1a", "C1b"]`, the source condition event fans out into those two events
in service order. -/
theorem fanout_law_C1_witness :
    (convert_code_in_event [("ICD9", "ICD10")]
        (fun _ _ c => if c = "C1" then ["C1a", "C1b"] else []) []
        ⟨"C1", "ICD9", "condition_occurrence", "V1", "P1", "2020-01-02"⟩).1
      = [⟨"C1a", "ICD10", "condition_occurrence", "V1", "P1", "2020-01-02"⟩,
         ⟨"C1b", "ICD10", "condition_occurrence", "V1", "P1", "2020-01-02"⟩] :=
  (fanout_law_C1 [("ICD9", "ICD10")]
    (fun _ _ c => if c = "C1" then ["C1a", "C1b"] else []) []
    ⟨"C1", "ICD9", "condition_occurrence", "V1", "P1", "2020-01-02"⟩
    "ICD10" ["C1a", "C1b"] rfl rfl).1

/-- A timeline all of whose events are unconfigured converts to itself. -/
theorem convert_code_in_patient_dict_unmapped (cm : CodeMapping) (tool : Tool)
    (cv : Registry) (pd : PatientDict)
    (h : ∀ g ∈ pd, ∀ v ∈ g.2.visits, ∀ te ∈ v.event_list_dict, ∀ e ∈ te.2,
        lookupStr e.vocabulary cm = none) :
    convert_code_in_patient_dict cm tool cv pd = (pd, cv) := by
  induction pd with
  | nil => rfl
  | cons g rest ih =>
      have hg : ∀ v ∈ g.2.visits, ∀ te ∈ v.event_list_dict, ∀ e ∈ te.2,
          lookupStr e.vocabulary cm = none := h g (by simp)
      have hrest : ∀ x ∈ rest, ∀ v ∈ x.2.visits, ∀ te ∈ v.event_list_dict,
          ∀ e ∈ te.2, lookupStr e.vocabulary cm = none :=
        fun x hx => h x (by simp [hx])
      obtain ⟨pid, p⟩ := g
      simp [convert_code_in_patient_dict,
        convert_code_in_patient_unmapped cm tool cv p hg, ih hrest]

/-- C9: an event whose vocabulary has no configured source mapping passes
through unchanged (registry included), and re-running the mapper on a
timeline in which no event's vocabulary matches any configured source leaves
the timeline (and registry) equal to its input. -/
theorem mapper_idempotent_C9 (cm : CodeMapping) (tool : Tool) (cv : Registry)
    (pd : PatientDict)
    (h : ∀ g ∈ pd, ∀ v ∈ g.2.visits, ∀ te ∈ v.event_list_dict, ∀ e ∈ te.2,
        lookupStr e.vocabulary cm = none) :
    (∀ (cv2 : Registry) (e : Event), lookupStr e.vocabulary cm = none →
        convert_code_in_event cm tool cv2 e = ([e], cv2))
      ∧ convert_code_in_patient_dict cm tool cv pd = (pd, cv) :=
  ⟨fun cv2 e he => convert_code_in_event_unmapped cm tool cv2 e he,
    convert_code_in_patient_dict_unmapped cm tool cv pd h⟩

/-- Witness for C9: a one-patient timeline holding a single `NDC`-vocabulary
event is left untouched by a mapper configured only for `ICD9`. -/
theorem mapper_idempotent_C9_witness :
    convert_code_in_patient_dict [("ICD9", "ICD10")] (fun _ _ _ => [])
        [("cond", "ICD10")]
        [("P1", ⟨"P1", "1980-1-1", none, "8507", "0",
          [⟨"V1", "P1", "2020-01-01", "2020-01-05", 0,
            [("condition_occurrence",
              [⟨"c1", "NDC", "condition_occurrence", "V1", "P1", "t"⟩])]⟩]⟩)]
      = ([("P1", ⟨"P1", "1980-1-1", none, "8507", "0",
          [⟨"V1", "P1", "2020-01-01", "2020-01-05", 0,
            [("condition_occurrence",
              [⟨"c1", "NDC", "condition_occurrence", "V1", "P1", "t"⟩])]⟩]⟩)],
         [("cond", "ICD10")]) :=
  (mapper_idempotent_C9 [("ICD9", "ICD10")] (fun _ _ _ => [])
    [("cond", "ICD10")]
    [("P1", ⟨"P1", "1980-1-1", none, "8507", "0",
      [⟨"V1", "P1", "2020-01-01", "2020-01-05", 0,
        [("condition_occurrence",
          [⟨"c1", "NDC", "condition_occurrence", "V1", "P1", "t"⟩])]⟩]⟩)]
    (by decide)).2

/-- Reading the registry after the update loop: the looked-up value is the
old value, rewritten only when it equals the source vocabulary. -/
theorem lookupStr_update_code_vocs (cv : Registry) (src tgt k : String) :
    lookupStr k (update_code_vocs cv src tgt)
      = (lookupStr k cv).map (fun v => if v = src then tgt else v) := by
  induction cv with
  | nil => rfl
  | cons kv rest ih =>
      obtain ⟨a, b⟩ := kv
      simp only [update_code_vocs, List.map_cons] at ih ⊢
      by_cases hb : b = src
      · rw [if_pos hb]
        by_cases ha : a = k
        · simp [lookupStr, ha, hb]
        · simp [lookupStr, ha, ih]
      · rw [if_neg hb]
        by_cases ha : a = k
        · simp [lookupStr, ha, hb]
        · simp [lookupStr, ha, ih]

/-- C8 amended: mapping an event with source vocabulary `s` to target `t`
rewrites every registry entry whose current value equals `s` — whatever its
table — to `t`; in particular the entry for the event's own table is left
unchanged whenever its current value differs from `s`, so the registry is
value-matched, not keyed by the mapped event's table. -/
theorem registry_update_C8 (cm : CodeMapping) (tool : Tool) (cv : Registry)
    (ev : Event) (tgt : String)
    (hm : lookupStr ev.vocabulary cm = some tgt) :
    (convert_code_in_event cm tool cv ev).2
        = cv.map (fun kv => if kv.2 = ev.vocabulary then (kv.1, tgt) else kv)
      ∧ (∀ v, lookupStr ev.table cv = some v → v ≠ ev.vocabulary →
          lookupStr ev.table (convert_code_in_event cm tool cv ev).2 = some v) := by
  have hsnd : (convert_code_in_event cm tool cv ev).2
      = update_code_vocs cv ev.vocabulary tgt := by
    simp [convert_code_in_event, hm]
  constructor
  · rw [hsnd]; rfl
  · intro v hv hne
    rw [hsnd, lookupStr_update_code_vocs, hv]
    simp [hne]

/-- Witness for C8 (amended): mapping an `A`-vocabulary event of table `T`
with `{A ↦ X}` rewrites the registry entry `("T", "A")` to `("T", "X")`. -/
theorem registry_update_C8_witness :
    (convert_code_in_event [("A", "X")] (fun _ _ _ => ["c"]) [("T", "A")]
        ⟨"c0", "A", "T", "V1", "P1", "t"⟩).2 = [("T", "X")] :=
  (registry_update_C8 [("A", "X")] (fun _ _ _ => ["c"]) [("T", "A")]
    ⟨"c0", "A", "T", "V1", "P1", "t"⟩ "X" rfl).1

/-- Counterexample to C8 as stated: the registry holds
`condition_occurrence ↦ A` and an event of that table carrying vocabulary `B`
is mapped with `{A ↦ X, B ↦ Y}`; the claim demands the table's entry become
the applied mapping's target `Y`, but the value-matched loop leaves it at
`A`. -/
theorem registry_update_C8_counterexample :
    lookupStr "condition_occurrence"
        (convert_code_in_event [("A", "X"), ("B", "Y")] (fun _ _ _ => ["c"])
          [("condition_occurrence", "A")]
          ⟨"c0", "B", "condition_occurrence", "V1", "P1", "t"⟩).2
      ≠ some "Y" := by decide

/-- C2: an episode built by the basic-info assembler has discharge status
alive (0) exactly when the person has no recorded death date or the death
date is strictly after the episode's end date, and deceased (1) in every
other case. -/
theorem discharge_status_rule_C2 (p_id v_id : String) (v_info : List JoinedRow) :
    (((visit_unit p_id v_id v_info).discharge_status = 0)
        ↔ ((v_info.headD defaultJoinedRow).death_date = none
            ∨ ∃ d, (v_info.headD defaultJoinedRow).death_date = some d
                ∧ strLtB (((v_info.headD defaultJoinedRow).visit.getD
                    defaultVisitCols).visit_end_date) d = true))
      ∧ (((visit_unit p_id v_id v_info).discharge_status = 1)
        ↔ ¬ ((v_info.headD defaultJoinedRow).death_date = none
            ∨ ∃ d, (v_info.headD defaultJoinedRow).death_date = some d
                ∧ strLtB (((v_info.headD defaultJoinedRow).visit.getD
                    defaultVisitCols).visit_end_date) d = true)) := by
  simp only [visit_unit]
  cases hd : (v_info.headD defaultJoinedRow).death_date with
  | none => simp [discharge_status]
  | some d =>
      by_cases hlt : strLtB (((v_info.headD defaultJoinedRow).visit.getD
          defaultVisitCols).visit_end_date) d = true
      · simp [discharge_status, hlt]
      · simp [discharge_status, hlt]

/-- Witness for C2: a visit group with no recorded death date yields
discharge status alive (0). -/
theorem discharge_status_rule_C2_witness :
    (visit_unit "P1" "V1"
        [⟨"P1", "1980", "1", "1", "8507", "0",
          some ⟨"V1", "2020-01-01 00:00:00", "2020-01-01", "2020-01-05"⟩,
          none⟩]).discharge_status = 0 :=
  (discharge_status_rule_C2 "P1" "V1"
    [⟨"P1", "1980", "1", "1", "8507", "0",
      some ⟨"V1", "2020-01-01 00:00:00", "2020-01-01", "2020-01-05"⟩,
      none⟩]).1.mpr (Or.inl rfl)

/-- Counterexample to C3 as stated: with death date 2020-01-03 and episode
end 2020-01-05 (death on or before the end), the assembler assigns deceased
(1), not alive (0) as the claim says. -/
theorem discharge_scenario_C3_counterexample :
    ¬ ((parse_basic_info false
          [⟨"P1", "1980", "1", "1", "8507", "0"⟩]
          [⟨"P1", "V1", "2020-01-01 00:00:00", "2020-01-01", "2020-01-05"⟩]
          [⟨"P1", "2020-01-03"⟩]).map
        (fun g => g.2.visits.map (fun v => v.discharge_status)) = [[0]]) := by
  decide

/-- C3 amended: for the episode ending 2020-01-05, death date 2020-01-03
(equal to or before the end) yields deceased; death date 2020-01-10 (strictly
after the end) yields alive. -/
theorem discharge_scenario_C3 :
    (parse_basic_info false
        [⟨"P1", "1980", "1", "1", "8507", "0"⟩]
        [⟨"P1", "V1", "2020-01-01 00:00:00", "2020-01-01", "2020-01-05"⟩]
        [⟨"P1", "2020-01-03"⟩]).map
      (fun g => g.2.visits.map (fun v => v.discharge_status)) = [[1]]
    ∧ (parse_basic_info false
        [⟨"P1", "1980", "1", "1", "8507", "0"⟩]
        [⟨"P1", "V1", "2020-01-01 00:00:00", "2020-01-01", "2020-01-05"⟩]
        [⟨"P1", "2020-01-10"⟩]).map
      (fun g => g.2.visits.map (fun v => v.discharge_status)) = [[0]] := by
  decide

/-! ### Ordering lemmas for the `groupby` key lists -/

/-- Lexicographic comparison is total. -/
theorem lexLt_total : ∀ as bs : List Char,
    lexLt as bs = true ∨ as = bs ∨ lexLt bs as = true
  | [], [] => Or.inr (Or.inl rfl)
  | [], _ :: _ => Or.inl rfl
  | _ :: _, [] => Or.inr (Or.inr rfl)
  | a :: as, b :: bs => by
      rcases Nat.lt_trichotomy a.toNat b.toNat with h | h | h
      · left; simp [lexLt, h]
      · have hab : a = b := by
          apply Char.eq_of_val_eq
          unfold Char.toNat at h
          exact UInt32.eq_of_val_eq (Fin.ext h)
        subst hab
        rcases lexLt_total as bs with h1 | h1 | h1
        · left; simp [lexLt, h1]
        · right; left; rw [h1]
        · right; right; simp [lexLt, h1]
      · right; right; simp [lexLt, Nat.lt_asymm h, h]

/-- String comparison is total. -/
theorem strLtB_total (a b : String) :
    strLtB a b = true ∨ a = b ∨ strLtB b a = true := by
  rcases lexLt_total a.data b.data with h | h | h
  · exact Or.inl h
  · refine Or.inr (Or.inl ?_)
    cases a; cases b; exact congrArg String.mk h
  · exact Or.inr (Or.inr h)

/-- The head of an insertion is the inserted key or the old head. -/
theorem insertKey_head (x : String) : ∀ l : List String,
    (insertKey x l).head? = some x ∨ (insertKey x l).head? = l.head?
  | [] => Or.inl rfl
  | y :: ys => by
      unfold insertKey
      by_cases h1 : strLtB x y = true
      · left; rw [if_pos h1]; rfl
      · right
        by_cases h2 : x = y
        · rw [if_neg h1, if_pos h2]
        · rw [if_neg h1, if_neg h2]; rfl

/-- Inserting into a strictly ascending key list keeps it strictly
ascending. -/
theorem chain_insertKey (x : String) : ∀ l : List String,
    l.Chain' (fun a b => strLtB a b = true) →
    (insertKey x l).Chain' (fun a b => strLtB a b = true)
  | [], _ => by simp [insertKey]
  | y :: ys, h => by
      unfold insertKey
      by_cases h1 : strLtB x y = true
      · rw [if_pos h1, List.chain'_cons]
        exact ⟨h1, h⟩
      · rw [if_neg h1]
        by_cases h2 : x = y
        · rw [if_pos h2]; exact h
        · rw [if_neg h2]
          have hyx : strLtB y x = true := by
            rcases strLtB_total x y with h3 | h3 | h3
            · exact absurd h3 h1
            · exact absurd h3 h2
            · exact h3
          rw [List.chain'_cons']
          constructor
          · intro z hz
            rcases insertKey_head x ys with hh | hh
            · rw [hh] at hz
              simp only [Option.mem_def, Option.some.injEq] at hz
              rw [← hz]
              exact hyx
            · rw [hh] at hz
              exact (List.chain'_cons'.mp h).1 z hz
          · exact chain_insertKey x ys (List.Chain'.tail h)

/-- The sorted distinct key list a `groupby` iterates over is strictly
ascending. -/
theorem sortedNub_chain (l : List String) :
    (sortedNub l).Chain' (fun a b => strLtB a b = true) := by
  induction l with
  | nil => simp [sortedNub]
  | cons a l ih => exact chain_insertKey a (sortedNub l) ih

/-- C4 amended: the visits of every patient the basic-info assembler builds
appear in strictly ascending order of visit (episode) id — the `groupby` key
order — not in ascending order of encounter start time. -/
theorem visits_sorted_C4 (dev : Bool) (ps : List PersonRow) (vs : List VisitRow)
    (ds : List DeathRow) :
    ∀ g ∈ parse_basic_info dev ps vs ds,
      g.2.visits.Chain' (fun a b => strLtB a.visit_id b.visit_id = true) := by
  intro g hg
  simp only [parse_basic_info, List.mem_filterMap] at hg
  obtain ⟨gp, _, hmap⟩ := hg
  cases hb : basic_unit gp.2 with
  | none => rw [hb] at hmap; cases hmap
  | some p =>
      rw [hb] at hmap
      simp only [Option.map_some', Option.some.injEq] at hmap
      obtain ⟨r0, rs, hrows⟩ : ∃ r0 rs, gp.2 = r0 :: rs := by
        cases hgp : gp.2 with
        | nil => rw [hgp] at hb; cases hb
        | cons r0 rs => exact ⟨r0, rs, rfl⟩
      rw [hrows] at hb
      simp only [basic_unit, Option.some.injEq] at hb
      rw [← hmap, ← hb]
      simp only [groupby, List.map_map]
      rw [List.chain'_map]
      exact sortedNub_chain _

/-- Witness for C4 (amended): the concrete two-visit patient below has its
visits in strictly ascending visit-id order. -/
theorem visits_sorted_C4_witness :
    List.Chain' (fun a b : Visit => strLtB a.visit_id b.visit_id = true)
      [⟨"V1", "P1", "2020-02-01", "2020-02-03", 0, []⟩,
       ⟨"V2", "P1", "2020-01-01", "2020-01-02", 0, []⟩] :=
  visits_sorted_C4 false
    [⟨"P1", "1980", "1", "1", "8507", "0"⟩]
    [⟨"P1", "V1", "2020-02-01 00:00:00", "2020-02-01", "2020-02-03"⟩,
     ⟨"P1", "V2", "2020-01-01 00:00:00", "2020-01-01", "2020-01-02"⟩]
    []
    ("P1", ⟨"P1", "1980-1-1", none, "8507", "0",
      [⟨"V1", "P1", "2020-02-01", "2020-02-03", 0, []⟩,
       ⟨"V2", "P1", "2020-01-01", "2020-01-02", 0, []⟩]⟩)
    (by decide)

/-- Counterexample to C4 as stated: a person whose visit with the smaller
visit id starts later. The assembler emits the visits in visit-id order
(`V1` then `V2`), so the encounter start times descend. -/
theorem visits_order_C4_counterexample :
    ¬ (∀ g ∈ parse_basic_info false
          [⟨"P1", "1980", "1", "1", "8507", "0"⟩]
          [⟨"P1", "V1", "2020-02-01 00:00:00", "2020-02-01", "2020-02-03"⟩,
           ⟨"P1", "V2", "2020-01-01 00:00:00", "2020-01-01", "2020-01-02"⟩]
          [],
        g.2.visits.Chain'
          (fun a b => strLeB a.encounter_time b.encounter_time = true)) := by
  intro h
  have heq : parse_basic_info false
      [⟨"P1", "1980", "1", "1", "8507", "0"⟩]
      [⟨"P1", "V1", "2020-02-01 00:00:00", "2020-02-01", "2020-02-03"⟩,
       ⟨"P1", "V2", "2020-01-01 00:00:00", "2020-01-01", "2020-01-02"⟩]
      [] = [("P1", ⟨"P1", "1980-1-1", none, "8507", "0",
        [⟨"V1", "P1", "2020-02-01", "2020-02-03", 0, []⟩,
         ⟨"V2", "P1", "2020-01-01", "2020-01-02", 0, []⟩]⟩)] := by
    decide
  rw [heq] at h
  have h2 := h ("P1", ⟨"P1", "1980-1-1", none, "8507", "0",
    [⟨"V1", "P1", "2020-02-01", "2020-02-03", 0, []⟩,
     ⟨"V2", "P1", "2020-01-01", "2020-01-02", 0, []⟩]⟩) (by simp)
  rw [List.chain'_cons] at h2
  exact absurd h2.1 (by decide)

/-! ### Lemmas about event attachment -/

/-- Looking up after the in-place patient update of
`_add_event_to_patient_dict`. -/
theorem lookupStr_map_update (pd : PatientDict) (ev : Event) (k : String) :
    lookupStr k
        (pd.map (fun kv =>
          if kv.1 = ev.patient_id then (kv.1, Patient.add_event kv.2 ev) else kv))
      = if k = ev.patient_id then
          (lookupStr k pd).map (fun p => Patient.add_event p ev)
        else lookupStr k pd := by
  induction pd with
  | nil => simp [lookupStr]
  | cons kv rest ih =>
      obtain ⟨a, p⟩ := kv
      simp only [List.map_cons]
      by_cases hax : a = ev.patient_id
      · rw [if_pos hax]
        by_cases hak : a = k
        · subst hak
          rw [hax]
          simp [lookupStr]
        · simp only [lookupStr, if_neg hak, ih]
      · rw [if_neg hax]
        by_cases hak : a = k
        · subst hak
          simp [lookupStr, hax]
        · simp only [lookupStr, if_neg hak, ih]

/-- Attachment never changes which person ids are present in the timeline. -/
theorem lookupStr_add_event_isSome (pd : PatientDict) (ev : Event) (k : String) :
    (lookupStr k (add_event_to_patient_dict pd ev)).isSome
      = (lookupStr k pd).isSome := by
  unfold add_event_to_patient_dict
  cases h : lookupStr ev.patient_id pd with
  | none => rfl
  | some p =>
      dsimp only
      rw [lookupStr_map_update]
      by_cases hk : k = ev.patient_id
      · rw [if_pos hk]; cases lookupStr k pd <;> rfl
      · rw [if_neg hk]

/-- Folding a whole event list never changes which person ids are present. -/
theorem lookupStr_foldl_isSome (evs : List Event) (pd : PatientDict) (k : String) :
    (lookupStr k (evs.foldl add_event_to_patient_dict pd)).isSome
      = (lookupStr k pd).isSome := by
  induction evs generalizing pd with
  | nil => rfl
  | cons e es ih =>
      rw [List.foldl_cons, ih, lookupStr_add_event_isSome]

/-- Dropping the orphan events of a list before folding it changes nothing:
each orphan is a no-op and cannot affect its siblings. -/
theorem foldl_add_filter (evs : List Event) (pd : PatientDict) :
    evs.foldl add_event_to_patient_dict pd
      = (evs.filter (fun e => (lookupStr e.patient_id pd).isSome)).foldl
          add_event_to_patient_dict pd := by
  induction evs generalizing pd with
  | nil => rfl
  | cons e es ih =>
      rw [List.filter_cons]
      by_cases he : (lookupStr e.patient_id pd).isSome = true
      · rw [if_pos he, List.foldl_cons, List.foldl_cons, ih]
        congr 1
        apply List.filter_congr
        intro x _
        rw [lookupStr_add_event_isSome]
      · have hnone : lookupStr e.patient_id pd = none :=
          Option.not_isSome_iff_eq_none.mp (by simpa using he)
        have hid : add_event_to_patient_dict pd e = pd := by
          unfold add_event_to_patient_dict
          rw [hnone]
        rw [if_neg he, List.foldl_cons, hid, ih]

/-- C5: an event whose person id is not a key of the timeline is dropped (the
timeline is returned unchanged, so the event appears nowhere), an event whose
person id is present is delivered to exactly that person, and the drop is
per-event atomic — pre-filtering every orphan out of every group changes
nothing about how the remaining (resolvable) events attach, and the whole
operation is a total function (it never raises). -/
theorem orphan_drop_C5 (pd : PatientDict) (ev : Event) (evss : List (List Event)) :
    (lookupStr ev.patient_id pd = none → add_event_to_patient_dict pd ev = pd)
      ∧ (∀ p, lookupStr ev.patient_id pd = some p →
          lookupStr ev.patient_id (add_event_to_patient_dict pd ev)
            = some (Patient.add_event p ev))
      ∧ add_events_to_patient_dict pd evss
          = add_events_to_patient_dict pd
              (evss.map (fun evs =>
                evs.filter (fun e => (lookupStr e.patient_id pd).isSome))) := by
  refine ⟨?_, ?_, ?_⟩
  · intro h
    unfold add_event_to_patient_dict
    rw [h]
  · intro p hp
    unfold add_event_to_patient_dict
    rw [hp]
    dsimp only
    rw [lookupStr_map_update, if_pos rfl, hp]
    rfl
  · induction evss generalizing pd with
    | nil => rfl
    | cons evs rest ih =>
        simp only [add_events_to_patient_dict, List.foldl_cons, List.map_cons]
        rw [← foldl_add_filter evs pd]
        have hmaps :
            rest.map (fun evs2 =>
                evs2.filter (fun e => (lookupStr e.patient_id pd).isSome))
              = rest.map (fun evs2 =>
                  evs2.filter (fun e =>
                    (lookupStr e.patient_id
                      (evs.foldl add_event_to_patient_dict pd)).isSome)) := by
          apply List.map_congr_left
          intro evs2 _
          apply List.filter_congr
          intro e _
          rw [lookupStr_foldl_isSome]
        rw [hmaps]
        exact ih (evs.foldl add_event_to_patient_dict pd)

/-- Witness for C5: an event naming the absent person `P9` leaves the
one-patient timeline exactly as it was. -/
theorem orphan_drop_C5_witness :
    add_event_to_patient_dict
        [("P1", ⟨"P1", "1980-1-1", none, "8507", "0",
          [⟨"V1", "P1", "2020-01-01", "2020-01-05", 0, []⟩]⟩)]
        ⟨"c1", "CONDITION_CONCEPT_ID", "condition_occurrence", "V1", "P9", "t"⟩
      = [("P1", ⟨"P1", "1980-1-1", none, "8507", "0",
          [⟨"V1", "P1", "2020-01-01", "2020-01-05", 0, []⟩]⟩)] :=
  (orphan_drop_C5
    [("P1", ⟨"P1", "1980-1-1", none, "8507", "0",
      [⟨"V1", "P1", "2020-01-01", "2020-01-05", 0, []⟩]⟩)]
    ⟨"c1", "CONDITION_CONCEPT_ID", "condition_occurrence", "V1", "P9", "t"⟩
    []).1 rfl

/-- C6 amended: the cache key is a deterministic function of exactly
{dataset name, source root, sorted table list, sorted code-mapping entries,
development-mode flag} — two runs agreeing on those five components always
compute the same key — but those five do not cover every input that affects
the cached content: the csv separator and the compression flag change what is
read (and hence what is cached) yet are absent from the key. -/
theorem cache_key_C6 (c1 c2 : Config)
    (h1 : c1.dataset_name = c2.dataset_name) (h2 : c1.root = c2.root)
    (h3 : c1.tables = c2.tables) (h4 : c1.code_mapping = c2.code_mapping)
    (h5 : c1.dev = c2.dev) :
    cache_key c1 = cache_key c2 := by
  unfold cache_key args_to_hash
  rw [h1, h2, h3, h4, h5]

/-- Witness for C6 (amended): two configurations differing in separator and
compression flag but agreeing on the five keyed components share a key. -/
theorem cache_key_C6_witness :
    cache_key ⟨"OMOPDataset", "/data", ["t1"], [("NDC", "ATC")], false, "\t", false⟩
      = cache_key ⟨"OMOPDataset", "/data", ["t1"], [("NDC", "ATC")], false, ",", true⟩ :=
  cache_key_C6
    ⟨"OMOPDataset", "/data", ["t1"], [("NDC", "ATC")], false, "\t", false⟩
    ⟨"OMOPDataset", "/data", ["t1"], [("NDC", "ATC")], false, ",", true⟩
    rfl rfl rfl rfl rfl

/-- Counterexample to C6 as stated: two runs differing only in the
compression flag read their tables from different files (so their outputs
can differ), yet they compute the same cache key. -/
theorem cache_key_C6_counterexample :
    cache_key ⟨"OMOPDataset", "/data", ["t1"], [("NDC", "ATC")], false, "\t", false⟩
      = cache_key ⟨"OMOPDataset", "/data", ["t1"], [("NDC", "ATC")], false, "\t", true⟩
    ∧ table_filename "/data" "person" false ≠ table_filename "/data" "person" true := by
  exact ⟨rfl, by decide⟩

/-- C7: with the cache file present and no forced refresh the constructor
returns the deserialized (timeline, registry) pair without running the
pipeline or writing the cache; a deserialization failure raises the error
demanding `refresh_cache=True` instead of silently reprocessing; and on a
miss or a forced refresh the full pipeline runs and its result is
persisted. -/
theorem cache_branch_C7 {α : Type} (cache_hit refresh : Bool) (load : Option α)
    (pipe : α) :
    (∀ d, cache_hit = true → refresh = false → load = some d →
        dataset_init cache_hit refresh load pipe
          = ⟨Except.ok d, false, false⟩)
      ∧ (cache_hit = true → refresh = false → load = none →
          dataset_init cache_hit refresh load pipe
            = ⟨Except.error "Please refresh your cache by set refresh_cache=True",
                false, false⟩)
      ∧ ((cache_hit = false ∨ refresh = true) →
          dataset_init cache_hit refresh load pipe
            = ⟨Except.ok pipe, true, true⟩) := by
  refine ⟨?_, ?_, ?_⟩
  · intro d hc hr hl; subst hc; subst hr; subst hl; rfl
  · intro hc hr hl; subst hc; subst hr; subst hl; rfl
  · intro h
    rcases h with h | h
    · subst h; rfl
    · subst h; simp [dataset_init]

/-- Witness for C7: a hit returns the cached pair untouched, a corrupt cache
raises the refresh error, and a miss runs and saves the pipeline result. -/
theorem cache_branch_C7_witness :
    dataset_init true false (some 7) 9 = ⟨Except.ok 7, false, false⟩
      ∧ dataset_init true false (none : Option Nat) 9
        = ⟨Except.error "Please refresh your cache by set refresh_cache=True",
            false, false⟩
      ∧ dataset_init false false (none : Option Nat) 9
        = ⟨Except.ok 9, true, true⟩ :=
  ⟨(cache_branch_C7 true false (some 7) 9).1 7 rfl rfl rfl,
    (cache_branch_C7 true false (none : Option Nat) 9).2.1 rfl rfl rfl,
    (cache_branch_C7 false false (none : Option Nat) 9).2.2 (Or.inl rfl)⟩

/-! ### Membership lemmas for the dev-cap claim -/

/-- Members of an insertion come from the inserted key or the old list. -/
theorem mem_insertKey {z x : String} : ∀ {l : List String},
    z ∈ insertKey x l → z = x ∨ z ∈ l := by
  intro l
  induction l with
  | nil => intro h; simp [insertKey] at h; exact Or.inl h
  | cons y ys ih =>
      intro h
      unfold insertKey at h
      by_cases h1 : strLtB x y = true
      · rw [if_pos h1] at h
        rcases List.mem_cons.mp h with h | h
        · exact Or.inl h
        · exact Or.inr h
      · rw [if_neg h1] at h
        by_cases h2 : x = y
        · rw [if_pos h2] at h
          exact Or.inr h
        · rw [if_neg h2] at h
          rcases List.mem_cons.mp h with h | h
          · rw [h]; exact Or.inr (List.mem_cons_self _ _)
          · rcases ih h with h3 | h3
            · exact Or.inl h3
            · exact Or.inr (List.mem_cons_of_mem _ h3)

/-- Members of the sorted distinct key list come from the original list. -/
theorem mem_sortedNub {z : String} : ∀ {l : List String},
    z ∈ sortedNub l → z ∈ l := by
  intro l
  induction l with
  | nil => intro h; simp [sortedNub] at h
  | cons a l ih =>
      intro h
      rcases mem_insertKey (l := sortedNub l) h with h1 | h1
      · rw [h1]; exact List.mem_cons_self _ _
      · exact List.mem_cons_of_mem _ (ih h1)

/-- Members of a row insertion come from the inserted row or the old list. -/
theorem mem_insertRow {z r : JoinedRow} : ∀ {l : List JoinedRow},
    z ∈ insertRow r l → z = r ∨ z ∈ l := by
  intro l
  induction l with
  | nil => intro h; simp [insertRow] at h; exact Or.inl h
  | cons x xs ih =>
      intro h
      unfold insertRow at h
      by_cases h1 : rowLeB r x = true
      · rw [if_pos h1] at h
        rcases List.mem_cons.mp h with h | h
        · exact Or.inl h
        · exact Or.inr h
      · rw [if_neg h1] at h
        rcases List.mem_cons.mp h with h | h
        · rw [h]; exact Or.inr (List.mem_cons_self _ _)
        · rcases ih h with h3 | h3
          · exact Or.inl h3
          · exact Or.inr (List.mem_cons_of_mem _ h3)

/-- Sorting permutes: members of the sorted frame come from the unsorted
frame. -/
theorem mem_sort_values {z : JoinedRow} : ∀ {l : List JoinedRow},
    z ∈ sort_values l → z ∈ l := by
  intro l
  induction l with
  | nil => intro h; simp [sort_values] at h
  | cons r rs ih =>
      intro h
      rcases mem_insertRow (l := sort_values rs) h with h1 | h1
      · rw [h1]; exact List.mem_cons_self _ _
      · exact List.mem_cons_of_mem _ (ih h1)

/-- The death join never invents a person id. -/
theorem mem_joinDeath_person {r : JoinedRow} {rows : List JoinedRow}
    {ds : List DeathRow} (h : r ∈ joinDeath rows ds) :
    ∃ r0 ∈ rows, r.person_id = r0.person_id := by
  rw [joinDeath, List.mem_flatMap] at h
  obtain ⟨r0, hr0, hmem⟩ := h
  refine ⟨r0, hr0, ?_⟩
  revert hmem
  cases (ds.filter (fun d => d.person_id == r0.person_id)).map
      (fun d => d.death_date) with
  | nil =>
      intro hmem
      simp only [List.mem_singleton] at hmem
      rw [hmem]
  | cons dd dds =>
      intro hmem
      simp only [List.mem_map] at hmem
      obtain ⟨x, _, hx⟩ := hmem
      rw [← hx]

/-- The person ⟕ visit join only emits person ids of person rows. -/
theorem mem_joinPersonVisit_person {r : JoinedRow} {ps : List PersonRow}
    {vs : List VisitRow} (h : r ∈ joinPersonVisit ps vs) :
    r.person_id ∈ ps.map (fun p => p.person_id) := by
  rw [joinPersonVisit, List.mem_flatMap] at h
  obtain ⟨p, hp, hmem⟩ := h
  have hpid : r.person_id = p.person_id := by
    revert hmem
    cases vs.filter (fun v => v.person_id == p.person_id) with
    | nil =>
        intro hmem
        simp only [List.mem_singleton] at hmem
        rw [hmem]
    | cons v vrest =>
        intro hmem
        simp only [List.mem_map] at hmem
        obtain ⟨v0, _, hv⟩ := hmem
        rw [← hv]
  rw [hpid]
  exact List.mem_map_of_mem _ hp

/-- A group key of `groupby` occurs as a key of some row. -/
theorem groupby_key_mem {key : JoinedRow → Option String}
    {rows : List JoinedRow} {g : String × List JoinedRow}
    (h : g ∈ groupby key rows) : some g.1 ∈ rows.map key := by
  rw [groupby, List.mem_map] at h
  obtain ⟨k, hk, hkg⟩ := h
  have hk2 : k ∈ rows.filterMap key := mem_sortedNub hk
  rw [List.mem_filterMap] at hk2
  obtain ⟨r, hr, hrk⟩ := hk2
  rw [← hkg]
  rw [← hrk]
  exact List.mem_map_of_mem _ hr

/-- C10: in development mode the 1000-row cap applies to the person table
read alone — the visit_occurrence, death, condition_occurrence,
procedure_occurrence, drug_exposure and measurement reads carry no cap in
either mode — and every person id the assembler emits comes from the (capped)
person table, so the cap shrinks the cohort only through the person join
(events referencing uncapped persons then fall to the orphan drop). -/
theorem dev_cap_C10 {ρ : Type} (rows : List ρ) (dev : Bool)
    (ps : List PersonRow) (vs : List VisitRow) (ds : List DeathRow) :
    read_csv ps (person_nrows true) = ps.take 1000
      ∧ read_csv ps (person_nrows false) = ps
      ∧ read_csv rows (visit_occurrence_nrows dev) = rows
      ∧ read_csv rows (death_nrows dev) = rows
      ∧ read_csv rows (condition_occurrence_nrows dev) = rows
      ∧ read_csv rows (procedure_occurrence_nrows dev) = rows
      ∧ read_csv rows (drug_exposure_nrows dev) = rows
      ∧ read_csv rows (measurement_nrows dev) = rows
      ∧ (∀ g ∈ parse_basic_info dev ps vs ds,
          g.1 ∈ (read_csv ps (person_nrows dev)).map (fun p => p.person_id)) := by
  refine ⟨rfl, rfl, rfl, rfl, rfl, rfl, rfl, rfl, ?_⟩
  intro g hg
  simp only [parse_basic_info, List.mem_filterMap] at hg
  obtain ⟨gp, hgp, hmap⟩ := hg
  have hkey : gp.1 = g.1 := by
    cases hb : basic_unit gp.2 with
    | none => rw [hb] at hmap; cases hmap
    | some p =>
        rw [hb] at hmap
        simp only [Option.map_some', Option.some.injEq] at hmap
        rw [← hmap]
  have h1 := groupby_key_mem hgp
  rw [List.mem_map] at h1
  obtain ⟨r, hr, hrk⟩ := h1
  have hr2 : r ∈ joinDeath
      (joinPersonVisit (read_csv ps (person_nrows dev)) vs) ds :=
    mem_sort_values hr
  obtain ⟨r0, hr0, hpid⟩ := mem_joinDeath_person hr2
  have h3 := mem_joinPersonVisit_person hr0
  have hgr : r.person_id = g.1 := by
    have := hrk
    simp only [Option.some.injEq] at this
    rw [this, hkey]
  rw [← hgr, hpid] at *
  rw [← hpid]
  exact h3

/-- Witness for C10: the sole person id emitted by a concrete uncapped run
occurs in the person table read. -/
theorem dev_cap_C10_witness :
    "P1" ∈ (read_csv [(⟨"P1", "1980", "1", "1", "8507", "0"⟩ : PersonRow)]
        (person_nrows false)).map (fun p => p.person_id) :=
  (dev_cap_C10 ([] : List Nat) false
      [⟨"P1", "1980", "1", "1", "8507", "0"⟩]
      [⟨"P1", "V1", "2020-01-01 00:00:00", "2020-01-01", "2020-01-05"⟩]
      []).2.2.2.2.2.2.2.2
    ("P1", ⟨"P1", "1980-1-1", none, "8507", "0",
      [⟨"V1", "P1", "2020-01-01", "2020-01-05", 0, []⟩]⟩)
    (by decide)

end Omop
